import Mathlib

/-!
Shallow embedding of `src/hyperliquid_vault_filter.py`.

Raw vault records are JSON objects; we model a JSON value by `JVal`
(numbers as rationals, strings, booleans, null, and `other` for
arrays/objects whose structure the program never inspects — only their
Python truthiness matters, and `float()` raises `TypeError` on them).
A raw record is an association list from string keys to `JVal`.

`process_vaults` becomes `processVaults`/`processRecord`; the chained
candidate-key numeric extraction loops become `pickFloat` (APR, TVL)
and `ageScan` (timestamps); the name selection chain of Python `or`
expressions becomes `rowNameOf`.  The pandas mask filtering in `main`
becomes `filterRows` over a `Bounds` record, including the dtype
inference `pd.DataFrame.from_records` applies to the `age_days`
column: a column mixing numbers and `None` is coerced to float64 with
`None` becoming `NaN` (for which `age_filter` is false), while an
all-`None` column stays an object column with `None` preserved.
`fetch_vault_summaries` is embedded with the two network fetch
outcomes abstracted as inputs.
-/

namespace HLVault

/-- A JSON value as held in a decoded Python object.  `other` stands for
an array or object value: the program only ever tests its truthiness
(`nonempty`), and `float()` on it raises `TypeError`, which every call
site catches. -/
inductive JVal where
  | num (q : ℚ)
  | str (s : String)
  | bool (b : Bool)
  | null
  | other (nonempty : Bool)
  deriving DecidableEq, Repr

/-- Python truthiness of a JSON value (`bool(v)`): zero, the empty
string, `False`, `None`, and empty containers are falsy. -/
def truthy : JVal → Bool
  | .num q => decide (q ≠ 0)
  | .str s => decide (s ≠ "")
  | .bool b => b
  | .null => false
  | .other b => b

/-- Numeric value of an ASCII digit character. -/
def digitVal (c : Char) : ℕ := c.toNat - 48

/-- Value of a digit run read most-significant first. -/
def natOfDigits (ds : List Char) : ℕ := ds.foldl (fun a c => a * 10 + digitVal c) 0

/-- Integer-or-decimal mantissa: `digits`, `digits.digits`, `digits.` or
`.digits`, requiring at least one digit; returns the value and the
unconsumed suffix. -/
def parseMantissa (cs : List Char) : Option (ℚ × List Char) :=
  let ds := cs.takeWhile Char.isDigit
  let rest := cs.dropWhile Char.isDigit
  match rest with
  | '.' :: rest2 =>
    let fs := rest2.takeWhile Char.isDigit
    let rest3 := rest2.dropWhile Char.isDigit
    if ds.isEmpty && fs.isEmpty then none
    else some ((natOfDigits ds : ℚ) + (natOfDigits fs : ℚ) / (10 : ℚ) ^ fs.length, rest3)
  | _ => if ds.isEmpty then none else some ((natOfDigits ds : ℚ), rest)

/-- An exponent suffix: optional sign then a nonempty all-digit run that
consumes the rest of the input.  Returns (isNegative, magnitude). -/
def parseSignedNat (cs : List Char) : Option (Bool × ℕ) :=
  let p : Bool × List Char :=
    match cs with
    | '+' :: t => (false, t)
    | '-' :: t => (true, t)
    | t => (false, t)
  if p.2.isEmpty then none
  else if p.2.all Char.isDigit then some (p.1, natOfDigits p.2) else none

/-- Scale a mantissa by a signed decimal exponent. -/
def applyExp (m : ℚ) (neg : Bool) (e : ℕ) : ℚ :=
  if neg then m / (10 : ℚ) ^ e else m * (10 : ℚ) ^ e

/-- Python `float(s)` on a string, modelled over ℚ: surrounding
whitespace is stripped, then an optional sign, a mantissa and an
optional `e`/`E` exponent are parsed; any other character (such as `$`
or `,`) makes the conversion raise `ValueError`, modelled as `none`.
(Infinities and NaN have no ℚ counterpart and are outside the model.) -/
def pyFloatOfChars (cs : List Char) : Option ℚ :=
  let t1 := cs.dropWhile Char.isWhitespace
  let t := (t1.reverse.dropWhile Char.isWhitespace).reverse
  let p : Bool × List Char :=
    match t with
    | '+' :: t2 => (false, t2)
    | '-' :: t2 => (true, t2)
    | t2 => (false, t2)
  match parseMantissa p.2 with
  | none => none
  | some mr =>
    let signed : ℚ := if p.1 then -mr.1 else mr.1
    match mr.2 with
    | [] => some signed
    | 'e' :: t3 => (parseSignedNat t3).map (fun q => applyExp signed q.1 q.2)
    | 'E' :: t3 => (parseSignedNat t3).map (fun q => applyExp signed q.1 q.2)
    | _ => none

/-- Python `float(s)` on a string value. -/
def pyFloatOfString (s : String) : Option ℚ := pyFloatOfChars s.toList

/-- Python `float(v)` on a JSON value: numbers convert directly,
strings via literal parsing, booleans to 0/1; `None`, arrays and
objects raise (`TypeError`), which the extraction loops catch —
modelled as `none`. -/
def pyFloat : JVal → Option ℚ
  | .num q => some q
  | .str s => pyFloatOfString s
  | .bool b => some (if b then 1 else 0)
  | .null => none
  | .other _ => none

/-- A raw vault record: a JSON object, keys assumed distinct. -/
abbrev RawRecord := List (String × JVal)

/-- Python `v.get(key)`: the stored value, or `None` when the key is
absent.  A stored JSON `null` is also Python `None`, so both collapse
to `JVal.null`. -/
def pyGetV (r : RawRecord) (k : String) : JVal := (List.lookup k r).getD .null

/-- APR candidate keys, in the order tried by `process_vaults`. -/
def aprKeys : List String :=
  ["apr", "apy", "apr30d", "aprTrailing", "annualizedReturn", "currentApr", "roiTrailing"]

/-- TVL candidate keys, in the order tried by `process_vaults`. -/
def tvlKeys : List String := ["tvl", "totalDeposits", "tvlUsd"]

/-- Timestamp candidate keys, in the order tried by `process_vaults`. -/
def tsKeys : List String :=
  ["createTimeMillis", "createdTs", "createdTime", "startTimestamp", "createdAt"]

/-- The APR/TVL extraction loop: for each key in order, skip it when
`v.get(key)` is `None`, otherwise try `float(val)` and stop at the
first success; a `TypeError`/`ValueError` falls through to the next
key. -/
def pickFloat (r : RawRecord) : List String → Option ℚ
  | [] => none
  | k :: ks =>
    match pyGetV r k with
    | .null => pickFloat r ks
    | v =>
      match pyFloat v with
      | some q => some q
      | none => pickFloat r ks

/-- The `apr` column of a row: the selected candidate value, times 100
when it lies in [0, 1], defaulting to 0 when no candidate yields a
value. -/
def aprPercOf (r : RawRecord) : ℚ :=
  match pickFloat r aprKeys with
  | none => 0
  | some v => if 0 ≤ v ∧ v ≤ 1 then v * 100 else v

/-- The `tvl` column of a row: the selected candidate value, defaulting
to 0. -/
def tvlOf (r : RawRecord) : ℚ := (pickFloat r tvlKeys).getD 0

/-- The millisecond-detection threshold `1e12`. -/
def msThreshold : ℚ := (10 : ℚ) ^ 12

/-- A raw timestamp, divided by 1000 when it exceeds `1e12` (taken to
be milliseconds). -/
def tsAdjust (f : ℚ) : ℚ := if msThreshold < f then f / 1000 else f

/-- Age in days of a vault created at (adjusted) timestamp `f`,
relative to `now` (both in seconds). -/
def ageFromTs (now f : ℚ) : ℚ := (now - tsAdjust f) / 86400

/-- The age extraction loop: for each timestamp key in order, skip it
when `v.get(key)` is falsy (`if ts:`), otherwise try `float(ts)`; the
first success yields the age, a parse failure falls through. -/
def ageScan (now : ℚ) (r : RawRecord) : List String → Option ℚ
  | [] => none
  | k :: ks =>
    let ts := pyGetV r k
    if truthy ts then
      match pyFloat ts with
      | some f => some (ageFromTs now f)
      | none => ageScan now r ks
    else ageScan now r ks

/-- The `age_days` column of a row. -/
def ageOf (now : ℚ) (r : RawRecord) : Option ℚ := ageScan now r tsKeys

/-- Python `a or b`: `a` when truthy, else `b`. -/
def pyOr (a b : JVal) : JVal := if truthy a then a else b

/-- `v.get("leader")[-6:] if isinstance(v.get("leader"), str) else None`. -/
def leaderTail (r : RawRecord) : JVal :=
  match pyGetV r "leader" with
  | .str s => .str (s.takeRight 6)
  | _ => .null

/-- The `name` local of `process_vaults`:
`v.get("vaultName") or v.get("name") or (leader tail)`. -/
def nameOf (r : RawRecord) : JVal :=
  pyOr (pyGetV r "vaultName") (pyOr (pyGetV r "name") (leaderTail r))

/-- The `name` column of a row: `name or "Unknown"`. -/
def rowNameOf (r : RawRecord) : JVal := pyOr (nameOf r) (.str "Unknown")

/-- A normalized vault row, one DataFrame record of `process_vaults`. -/
structure Row where
  name : JVal
  leader : JVal
  apr : ℚ
  tvl : ℚ
  age_days : Option ℚ
  raw : RawRecord
  deriving DecidableEq, Repr

/-- The row built for one raw record in the `process_vaults` loop. -/
def processRecord (now : ℚ) (r : RawRecord) : Row :=
  { name := rowNameOf r
    leader := pyGetV r "leader"
    apr := aprPercOf r
    tvl := tvlOf r
    age_days := ageOf now r
    raw := r }

/-- An element of the raw list handed to `process_vaults`: a JSON
object, or some other JSON value (`notDict`), on which the very first
`v.get(...)` raises `AttributeError` — uncaught, so the whole call
fails. -/
inductive RawItem where
  | dict (r : RawRecord)
  | notDict
  deriving DecidableEq, Repr

/-- Whether a raw item is a JSON object. -/
def RawItem.isDict : RawItem → Bool
  | .dict _ => true
  | .notDict => false

/-- The record of a raw item, when it is a JSON object. -/
def RawItem.asDict : RawItem → Option RawRecord
  | .dict r => some r
  | .notDict => none

/-- `process_vaults`: one row per record; a non-object element raises
`AttributeError`, aborting the whole call with no result. -/
def processVaults (now : ℚ) : List RawItem → Except Unit (List Row)
  | [] => .ok []
  | .dict r :: rest =>
    match processVaults now rest with
    | .ok rows => .ok (processRecord now r :: rows)
    | .error e => .error e
  | .notDict :: _ => .error ()

/-- The sidebar filter bounds of `main`. -/
structure Bounds where
  minApr : ℚ
  maxApr : ℚ
  minTvl : ℚ
  maxTvl : ℚ
  minAge : ℚ
  maxAge : ℚ
  deriving DecidableEq, Repr

/-- The first pandas mask: `(df["apr"] >= min_apr) & (df["apr"] <= max_apr)`. -/
def aprPass (b : Bounds) (r : Row) : Bool :=
  decide (b.minApr ≤ r.apr) && decide (r.apr ≤ b.maxApr)

/-- The second pandas mask: `(tvl >= min_tvl) & (tvl <= max_tvl)`. -/
def tvlPass (b : Bounds) (r : Row) : Bool :=
  decide (b.minTvl ≤ r.tvl) && decide (r.tvl ≤ b.maxTvl)

/-- The `age_filter` predicate applied to a cell of a float64
`age_days` column: `pd.DataFrame.from_records` has coerced Python
`None` to `NaN`, for which both `val is None` and `min_age <= val`
are false, so the row is dropped. -/
def agePassFloat (b : Bounds) : Option ℚ → Bool
  | none => false
  | some v => decide (b.minAge ≤ v) && decide (v ≤ b.maxAge)

/-- The `age_filter` predicate applied to a cell of an object
`age_days` column (every record lacked a timestamp, so `None` is
preserved): `val is None` holds and the row is retained. -/
def agePassObj (b : Bounds) : Option ℚ → Bool
  | none => true
  | some v => decide (b.minAge ≤ v) && decide (v ≤ b.maxAge)

/-- Whether `pd.DataFrame.from_records` infers a float64 `age_days`
column for the batch: at least one record has a numeric age.  In that
case the `None` entries of the other records are coerced to `NaN`;
only an all-`None` column keeps `None` as a Python object. -/
def mixedAge (rows : List Row) : Bool := rows.any (fun r => r.age_days.isSome)

/-- The three successive row selections applied by `main` to the
DataFrame built from the full batch: the APR and TVL masks, then
`age_filter` applied to the `age_days` column with the dtype the
DataFrame's construction gave it. -/
def filterRows (b : Bounds) (rows : List Row) : List Row :=
  if mixedAge rows then
    ((rows.filter (aprPass b)).filter (tvlPass b)).filter (fun r => agePassFloat b r.age_days)
  else
    ((rows.filter (aprPass b)).filter (tvlPass b)).filter (fun r => agePassObj b r.age_days)

/-- The merged per-row predicate of the float64 branch. -/
def passFloat (b : Bounds) (r : Row) : Bool :=
  aprPass b r && tvlPass b r && agePassFloat b r.age_days

/-- The merged per-row predicate of the object-column branch. -/
def passObj (b : Bounds) (r : Row) : Bool :=
  aprPass b r && tvlPass b r && agePassObj b r.age_days

/-- The sidebar's default bounds: APR 0-100, TVL 0-1e9, age 0-10000. -/
def defaultBounds : Bounds :=
  { minApr := 0, maxApr := 100, minTvl := 0, maxTvl := 10 ^ 9, minAge := 0, maxAge := 10 ^ 4 }

/-- A parsed HTTP response body: a JSON array of raw items, or some
other JSON value. -/
inductive Body where
  | jlist (xs : List RawItem)
  | notList
  deriving DecidableEq, Repr

/-- Which branch of `fetch_vault_summaries` produced the returned
list. -/
inductive Source where
  | primary
  | secondary
  | neither
  deriving DecidableEq, Repr

/-- The second half of `fetch_vault_summaries`: the info-endpoint
result is returned whenever it is a list (even an empty one);
otherwise, or on any error, the function returns `[]`. -/
def fetchSecondary : Except Unit Body → Source × List RawItem
  | .ok (.jlist xs) => (.secondary, xs)
  | _ => (.neither, [])

/-- `fetch_vault_summaries`, with the outcome of each network fetch
(error, or a successfully parsed body) abstracted as an input: the
snapshot is returned only when `isinstance(snapshot, list) and
snapshot` holds, i.e. it parsed to a nonempty list; any other outcome
falls through to the info endpoint. -/
def fetchVaultSummaries (prim sec : Except Unit Body) : Source × List RawItem :=
  match prim with
  | .ok (.jlist xs) => if xs.isEmpty then fetchSecondary sec else (.primary, xs)
  | _ => fetchSecondary sec

/-- Specification-level reading of the candidate scan: the first key,
in order, whose stored value converts to a number. -/
def firstParsed (r : RawRecord) (keys : List String) : Option ℚ :=
  (keys.filterMap (fun k => pyFloat (pyGetV r k))).head?

/-- Specification-level reading of the timestamp scan: the first key,
in order, whose stored value is truthy and converts to a number. -/
def firstTruthyParsed (r : RawRecord) (keys : List String) : Option ℚ :=
  (keys.filterMap (fun k => if truthy (pyGetV r k) then pyFloat (pyGetV r k) else none)).head?

attribute [local semireducible] Rat.mul Rat.inv Rat.add Rat.sub Rat.ofScientific

theorem pickFloat_cons (r : RawRecord) (k : String) (ks : List String) :
    pickFloat r (k :: ks) =
      match pyFloat (pyGetV r k) with
      | some q => some q
      | none => pickFloat r ks := by
  cases h : pyGetV r k <;> simp [pickFloat, h, pyFloat]

theorem pickFloat_eq_firstParsed (r : RawRecord) :
    ∀ keys, pickFloat r keys = firstParsed r keys
  | [] => rfl
  | k :: ks => by
    have ih := pickFloat_eq_firstParsed r ks
    rw [pickFloat_cons]
    unfold firstParsed
    rw [List.filterMap_cons]
    cases h : pyFloat (pyGetV r k) with
    | none => simpa [firstParsed] using ih
    | some q => simp

/-- C1 (amended): for every raw vault record, `tvl_usd` is the first
value among the ordered TVL candidate keys ("tvl", "totalDeposits",
"tvlUsd") that converts under plain `float()` — no stripping of
non-numeric characters — and defaults to 0 when every candidate is
missing or unparseable; in particular a record missing every TVL
candidate resolves to 0. -/
theorem tvl_selection (r : RawRecord) :
    tvlOf r = (firstParsed r tvlKeys).getD 0 ∧
    ((∀ k ∈ tvlKeys, List.lookup k r = none) → tvlOf r = 0) := by
  constructor
  · unfold tvlOf
    rw [pickFloat_eq_firstParsed]
  · intro h
    unfold tvlOf
    rw [pickFloat_eq_firstParsed]
    unfold firstParsed
    rw [List.filterMap_eq_nil_iff.mpr ?hnil]
    · rfl
    case hnil =>
      intro k hk
      unfold pyGetV
      rw [h k hk]
      rfl

/-- Witness for C1: a record with no TVL candidate key resolves to 0. -/
theorem tvl_selection_witness : tvlOf [("apr", JVal.num 7)] = 0 :=
  (tvl_selection [("apr", JVal.num 7)]).2 (by decide)

/-- C1 counterexample: the claimed cleanup does not exist; `float()` on
the string "$5,808" raises, so the candidate falls through and the
record normalizes to `tvl_usd = 0`, not 5808. -/
theorem tvl_dollar_string_zero :
    tvlOf [("tvl", JVal.str "$5,808")] = 0 ∧ (0 : ℚ) ≠ 5808 := by
  constructor
  · decide
  · decide

/-- C2: the APR value is selected from the ordered candidate key list;
a selected value `v` with `0 ≤ v ≤ 1` yields `apr = v * 100`, any
other selected value is used unchanged, and with no candidate the APR
is 0. -/
theorem apr_selection (r : RawRecord) :
    (firstParsed r aprKeys = none → aprPercOf r = 0) ∧
    (∀ v, firstParsed r aprKeys = some v →
      (0 ≤ v ∧ v ≤ 1 → aprPercOf r = v * 100) ∧
      (¬(0 ≤ v ∧ v ≤ 1) → aprPercOf r = v)) := by
  unfold aprPercOf
  rw [pickFloat_eq_firstParsed]
  constructor
  · intro h
    rw [h]
  · intro v hv
    rw [hv]
    constructor <;> intro h <;> simp [h]

/-- Witness for C2: a record with `apr = 0.12` normalizes to an APR of
`0.12 * 100 = 12` percent. -/
theorem apr_selection_witness :
    aprPercOf [("apr", JVal.num (3 / 25))] = 3 / 25 * 100 :=
  ((apr_selection [("apr", JVal.num (3 / 25))]).2 (3 / 25) (by decide)).1 (by decide)

/-- C6: a candidate key that is present but whose value fails numeric
conversion is treated as absent: selection falls through to the
remaining candidate keys. -/
theorem parse_failure_falls_through (r : RawRecord) (k : String) (ks : List String)
    (w : JVal) (hw : List.lookup k r = some w) (hp : pyFloat w = none) :
    pickFloat r (k :: ks) = pickFloat r ks := by
  rw [pickFloat_cons]
  have hg : pyGetV r k = w := by
    unfold pyGetV
    rw [hw]
    rfl
  rw [hg, hp]

/-- Witness for C6: with an unparseable "apr" and a numeric "apy", the
APR scan falls through to "apy" and the record gets APR 5. -/
theorem parse_failure_witness :
    pickFloat [("apr", JVal.str "abc"), ("apy", JVal.num 5)] aprKeys
      = pickFloat [("apr", JVal.str "abc"), ("apy", JVal.num 5)]
          ["apy", "apr30d", "aprTrailing", "annualizedReturn", "currentApr", "roiTrailing"] ∧
    aprPercOf [("apr", JVal.str "abc"), ("apy", JVal.num 5)] = 5 := by
  constructor
  · exact parse_failure_falls_through _ "apr" _ (JVal.str "abc") (by decide) (by decide)
  · decide

theorem ageScan_cons (now : ℚ) (r : RawRecord) (k : String) (ks : List String) :
    ageScan now r (k :: ks) =
      match (if truthy (pyGetV r k) then pyFloat (pyGetV r k) else none) with
      | some f => some (ageFromTs now f)
      | none => ageScan now r ks := by
  by_cases h : truthy (pyGetV r k) = true
  · simp only [ageScan, h, if_true]
  · rw [eq_false_of_ne_true h]
    simp only [ageScan, eq_false_of_ne_true h, Bool.false_eq_true, if_false]

theorem ageScan_eq (now : ℚ) (r : RawRecord) :
    ∀ keys, ageScan now r keys = (firstTruthyParsed r keys).map (ageFromTs now)
  | [] => rfl
  | k :: ks => by
    have ih := ageScan_eq now r ks
    rw [ageScan_cons]
    unfold firstTruthyParsed
    rw [List.filterMap_cons]
    cases h : (if truthy (pyGetV r k) then pyFloat (pyGetV r k) else none) with
    | none => simpa [firstTruthyParsed] using ih
    | some f => simp

/-- C3 (amended): `age_days` is computed from the first timestamp
candidate key whose value is truthy and converts to a number (falsy
values such as 0 are skipped, as are unparseable ones); a timestamp
above 1e12 is divided by 1000, the age is (now - ts) / 86400, and
`age_days` is absent when no candidate qualifies. -/
theorem age_selection (now : ℚ) (r : RawRecord) :
    ageOf now r = (firstTruthyParsed r tsKeys).map (ageFromTs now) ∧
    (∀ f : ℚ, msThreshold < f → ageFromTs now f = (now - f / 1000) / 86400) ∧
    (∀ f : ℚ, f ≤ msThreshold → ageFromTs now f = (now - f) / 86400) := by
  refine ⟨ageScan_eq now r tsKeys, ?above, ?below⟩
  case above =>
    intro f h
    unfold ageFromTs tsAdjust
    rw [if_pos h]
  case below =>
    intro f h
    unfold ageFromTs tsAdjust
    rw [if_neg (not_lt.mpr h)]

/-- Witness for C3: a timestamp above the 1e12 threshold is treated as
milliseconds and divided by 1000 in the age formula. -/
theorem age_selection_witness :
    ageFromTs 86400 (2 * 10 ^ 12) = (86400 - 2 * 10 ^ 12 / 1000) / 86400 :=
  (age_selection 86400 []).2.1 (2 * 10 ^ 12) (by norm_num [msThreshold])

/-- `age_days` as the claim sentence states it: computed from the
first candidate key that is present in the record (with a non-null
value and a numeric conversion), with the same millisecond adjustment
and age formula as the code. -/
def ageDaysClaimed (now : ℚ) (r : RawRecord) : Option ℚ :=
  ((tsKeys.filterMap (fun k =>
    match pyGetV r k with
    | .null => none
    | v => pyFloat v)).head?).map (ageFromTs now)

/-- C3 counterexample: a record whose only timestamp candidate is
`createdTs = 0` has the key present, so the claimed computation gives
an age of `now / 86400`, but the code skips the falsy value and leaves
`age_days` absent. -/
theorem age_zero_timestamp_diverges :
    ageOf 86400 [("createdTs", JVal.num 0)] = none ∧
    ageDaysClaimed 86400 [("createdTs", JVal.num 0)] = some 1 ∧
    (none : Option ℚ) ≠ some 1 := by
  refine ⟨by decide, ?claimed, by decide⟩
  case claimed =>
    have h0 : (List.filterMap (fun k =>
        match pyGetV [("createdTs", JVal.num 0)] k with
        | JVal.null => none
        | v => pyFloat v) tsKeys).head? = some 0 := by decide
    unfold ageDaysClaimed
    rw [h0]
    show some (ageFromTs 86400 0) = some 1
    rw [show ageFromTs 86400 0 = 1 by unfold ageFromTs tsAdjust msThreshold; norm_num]

theorem ageScan_none (now : ℚ) (r : RawRecord) :
    ∀ keys, (∀ k ∈ keys, truthy (pyGetV r k) = false) → ageScan now r keys = none
  | [], _ => rfl
  | k :: ks, h => by
    have hk := h k (List.mem_cons_self k ks)
    have ih := ageScan_none now r ks (fun a ha => h a (List.mem_cons_of_mem k ha))
    simp [ageScan, hk, ih]

/-- C9: when every timestamp candidate key is absent or maps to a
falsy value (0, empty string, false, null, empty container),
`age_days` is absent, exactly as for a record with no timestamp
field. -/
theorem age_falsy_absent (now : ℚ) (r : RawRecord)
    (h : ∀ k ∈ tsKeys, truthy (pyGetV r k) = false) :
    ageOf now r = none :=
  ageScan_none now r tsKeys h

/-- Witness for C9: a record with `createdTs = 0` and an empty-string
`startTimestamp` gets an absent age. -/
theorem age_falsy_absent_witness :
    ageOf 17 [("createdTs", JVal.num 0), ("startTimestamp", JVal.str "")] = none :=
  age_falsy_absent 17 [("createdTs", JVal.num 0), ("startTimestamp", JVal.str "")] (by decide)

/-- A string-or-absent field value: `some s` is the stored string,
`none` is an absent key (Python `None`). -/
def optStrVal : Option String → JVal
  | some s => .str s
  | none => .null

/-- The candidate the leader address contributes to the name chain:
its trailing 6 characters when it is a string, otherwise the empty
string (no candidate). -/
def leaderSuffix (r : RawRecord) : String :=
  match pyGetV r "leader" with
  | .str s => s.takeRight 6
  | _ => ""

/-- The first non-empty string of a candidate list, defaulting to the
placeholder "Unknown". -/
def firstNonEmptyName (cs : List String) : String :=
  (cs.filter (fun s => decide (s ≠ ""))).headD "Unknown"

theorem pyOr_assoc (a b c : JVal) : pyOr (pyOr a b) c = pyOr a (pyOr b c) := by
  by_cases ha : truthy a = true
  · simp [pyOr, ha]
  · by_cases hb : truthy b = true
    · simp [pyOr, eq_false_of_ne_true ha, hb]
    · simp [pyOr, eq_false_of_ne_true ha, eq_false_of_ne_true hb]

theorem pyOr_optStr (o : Option String) (rest : JVal) :
    pyOr (optStrVal o) rest =
      if o.getD "" = "" then rest else .str (o.getD "") := by
  cases o with
  | none => simp [optStrVal, pyOr, truthy]
  | some s =>
    by_cases hs : s = "" <;> simp [optStrVal, pyOr, truthy, hs]

theorem pyOr_leaderTail (r : RawRecord) (rest : JVal) :
    pyOr (leaderTail r) rest =
      if leaderSuffix r = "" then rest else .str (leaderSuffix r) := by
  unfold leaderTail leaderSuffix
  cases pyGetV r "leader" with
  | str s => by_cases hs : s.takeRight 6 = "" <;> simp [pyOr, truthy, hs]
  | num q => simp [pyOr, truthy]
  | bool b => simp [pyOr, truthy]
  | null => simp [pyOr, truthy]
  | other b => simp [pyOr, truthy]

/-- C7: the normalized name is the first non-empty of the display name
fields "vaultName" then "name" (each a string or absent), else the
trailing 6 characters of a string leader address, else the placeholder
"Unknown"; a record with no name fields and no string leader gets the
placeholder. -/
theorem name_chain (r : RawRecord) (sv sn : Option String)
    (hv : pyGetV r "vaultName" = optStrVal sv)
    (hn : pyGetV r "name" = optStrVal sn) :
    rowNameOf r = .str (firstNonEmptyName [sv.getD "", sn.getD "", leaderSuffix r]) := by
  unfold rowNameOf nameOf
  rw [hv, hn, pyOr_assoc, pyOr_assoc, pyOr_leaderTail, pyOr_optStr, pyOr_optStr]
  by_cases h1 : sv.getD "" = "" <;>
    by_cases h2 : sn.getD "" = "" <;>
      by_cases h3 : leaderSuffix r = "" <;>
        simp [firstNonEmptyName, h1, h2, h3]

/-- Witness for C7: a record with no name keys and a non-string leader
normalizes to the placeholder name "Unknown". -/
theorem name_chain_witness :
    rowNameOf [("leader", JVal.num 3)] = JVal.str "Unknown" := by
  have h := name_chain [("leader", JVal.num 3)] none none (by decide) (by decide)
  simpa [leaderSuffix, firstNonEmptyName] using h

theorem filter3_merge (p q s : Row → Bool) (l : List Row) :
    ((l.filter p).filter q).filter s = l.filter (fun r => p r && q r && s r) := by
  rw [List.filter_filter, List.filter_filter]
  apply List.filter_congr
  intro r _
  cases p r <;> cases q r <;> cases s r <;> rfl

theorem filterRows_float (b : Bounds) (l : List Row) (h : mixedAge l = true) :
    filterRows b l = l.filter (passFloat b) := by
  unfold filterRows
  rw [if_pos h]
  exact filter3_merge _ _ _ l

theorem filterRows_obj (b : Bounds) (l : List Row) (h : mixedAge l = false) :
    filterRows b l = l.filter (passObj b) := by
  unfold filterRows
  rw [if_neg (by simp [h])]
  exact filter3_merge _ _ _ l

/-- C4: the claim fails on the code.  In a batch mixing one record
with a timestamp and one without, the DataFrame coerces the absent
age to NaN and `age_filter` drops that row even at the sidebar's
default bounds, although its APR and TVL are within bounds and its
`age_days` is absent — contradicting "rows with absent age are always
retained" and the code's own comment above `age_filter`. -/
theorem absent_age_dropped_in_mixed_batch :
    filterRows defaultBounds
        [processRecord 86400 [("createdTs", JVal.num 43200)], processRecord 86400 []]
      = [processRecord 86400 [("createdTs", JVal.num 43200)]] ∧
    (processRecord 86400 []).age_days = none ∧
    aprPass defaultBounds (processRecord 86400 []) = true ∧
    tvlPass defaultBounds (processRecord 86400 []) = true := by
  refine ⟨?_, rfl, by decide, by decide⟩
  decide

/-- C5: filtering is idempotent; re-filtering an already-filtered row
list with the same bounds yields the same list.  (In the float64
branch the first pass drops every absent-age row, so the second pass
sees no NaN cell; in the object branch no row has a numeric age and
all rows keep passing `age_filter`.) -/
theorem filter_idempotent (b : Bounds) (rows : List Row) :
    filterRows b (filterRows b rows) = filterRows b rows := by
  by_cases hm : mixedAge rows = true
  · rw [filterRows_float b rows hm]
    have hall : ∀ r ∈ rows.filter (passFloat b), r.age_days.isSome = true := by
      intro r hr
      have hp := (List.mem_filter.mp hr).2
      unfold passFloat at hp
      simp only [Bool.and_eq_true] at hp
      obtain ⟨-, hA⟩ := hp
      cases hq : r.age_days with
      | none =>
        rw [hq] at hA
        simp [agePassFloat] at hA
      | some v => rfl
    by_cases hm2 : mixedAge (rows.filter (passFloat b)) = true
    · rw [filterRows_float b _ hm2, List.filter_filter]
      apply List.filter_congr
      intro r _
      cases hp : passFloat b r <;> simp [hp]
    · have hnil : rows.filter (passFloat b) = [] := by
        cases hl : rows.filter (passFloat b) with
        | nil => rfl
        | cons x xs =>
          exfalso
          apply hm2
          have hx : x ∈ rows.filter (passFloat b) := by
            rw [hl]
            exact List.mem_cons_self x xs
          have hs := hall x hx
          unfold mixedAge
          rw [hl]
          simp [hs]
      rw [hnil]
      rfl
  · have hm' : mixedAge rows = false := eq_false_of_ne_true hm
    rw [filterRows_obj b rows hm']
    have hsub : mixedAge (rows.filter (passObj b)) = false := by
      unfold mixedAge at hm' ⊢
      rw [List.any_eq_false] at hm' ⊢
      intro r hr
      exact hm' r (List.mem_of_mem_filter hr)
    rw [filterRows_obj b _ hsub, List.filter_filter]
    apply List.filter_congr
    intro r _
    cases hp : passObj b r <;> simp [hp]

/-- C8 (amended): the normalizer never skips a record — when every
element of the batch is a JSON object it produces exactly one row per
record — and a malformed (non-object) element makes the whole call
fail with no rows at all. -/
theorem process_batch_behavior (now : ℚ) (items : List RawItem) :
    ((∀ i ∈ items, i.isDict = true) →
      processVaults now items
        = .ok ((items.filterMap RawItem.asDict).map (processRecord now))) ∧
    ((∃ i ∈ items, i.isDict = false) → processVaults now items = .error ()) := by
  induction items with
  | nil =>
    refine ⟨fun _ => rfl, ?_⟩
    rintro ⟨i, hi, _⟩
    exact absurd hi (List.not_mem_nil i)
  | cons x rest ih =>
    cases x with
    | dict r =>
      constructor
      · intro h
        have hrest := ih.1 (fun i hi => h i (List.mem_cons_of_mem _ hi))
        simp [processVaults, hrest, RawItem.asDict]
      · rintro ⟨i, hi, hnd⟩
        rcases List.mem_cons.mp hi with h1 | h2
        · rw [h1] at hnd
          simp [RawItem.isDict] at hnd
        · have hrest := ih.2 ⟨i, h2, hnd⟩
          simp [processVaults, hrest]
    | notDict =>
      constructor
      · intro h
        have := h RawItem.notDict (List.mem_cons_self _ _)
        simp [RawItem.isDict] at this
      · intro _
        rfl

/-- Witness for C8: an all-object batch yields one row per record; a
batch containing a non-object element fails entirely. -/
theorem process_batch_witness :
    processVaults 5 [RawItem.dict []] = .ok [processRecord 5 []] ∧
    processVaults 5 [RawItem.dict [], RawItem.notDict] = .error () := by
  constructor
  · have h := (process_batch_behavior 5 [RawItem.dict []]).1 (by decide)
    simpa [RawItem.asDict] using h
  · exact (process_batch_behavior 5 [RawItem.dict [], RawItem.notDict]).2
      ⟨RawItem.notDict, by decide, rfl⟩

/-- C8 counterexample: a batch holding one well-formed record and one
malformed (non-object) element does not produce a row for the
well-formed record with the other skipped — the whole call fails with
no rows. -/
theorem malformed_record_fails_batch :
    processVaults 0 [RawItem.dict [("apr", JVal.num 1)], RawItem.notDict]
      = .error () := rfl

/-- C10: the fetcher returns the primary snapshot only when it parses
to a nonempty JSON list; a snapshot parsing to an empty list or to a
non-list is not returned, and the fetcher proceeds exactly as the
secondary info request alone would. -/
theorem fetch_primary_nonempty (prim sec : Except Unit Body) :
    ((fetchVaultSummaries prim sec).1 = .primary →
      ∃ xs, prim = .ok (.jlist xs) ∧ xs ≠ [] ∧ (fetchVaultSummaries prim sec).2 = xs) ∧
    (prim = .ok (.jlist []) → fetchVaultSummaries prim sec = fetchSecondary sec) ∧
    (prim = .ok .notList → fetchVaultSummaries prim sec = fetchSecondary sec) := by
  have hsec : (fetchSecondary sec).1 ≠ Source.primary := by
    rcases sec with e | b
    · simp [fetchSecondary]
    · cases b <;> simp [fetchSecondary]
  refine ⟨?_, ?_, ?_⟩
  · intro h
    rcases prim with e | b
    · exact absurd h hsec
    · cases b with
      | notList => exact absurd h hsec
      | jlist xs =>
        by_cases hxs : xs.isEmpty = true
        · rw [show fetchVaultSummaries (Except.ok (Body.jlist xs)) sec = fetchSecondary sec
              from by simp [fetchVaultSummaries, hxs]] at h
          exact absurd h hsec
        · refine ⟨xs, rfl, fun hnil => hxs (by simp [hnil]), ?_⟩
          simp [fetchVaultSummaries, hxs]
  · intro h
    rw [h]
    simp [fetchVaultSummaries]
  · intro h
    rw [h]
    rfl

/-- Witness for C10: a primary snapshot that parses to an empty list
is passed over in favour of the secondary endpoint result. -/
theorem fetch_primary_witness :
    fetchVaultSummaries (Except.ok (Body.jlist [])) (Except.ok (Body.jlist [RawItem.dict []]))
      = fetchSecondary (Except.ok (Body.jlist [RawItem.dict []])) :=
  (fetch_primary_nonempty (Except.ok (Body.jlist []))
    (Except.ok (Body.jlist [RawItem.dict []]))).2.1 rfl

end HLVault
